import Mathlib

/-!
Shallow embedding of the Adaptive Typing-Practice Engine of the Joyverse
repository (server module): the word bank, the problem-letter scorer
`getProblemLetterScores`, the difficulty estimator
`calculateAdaptiveDifficulty`, the word selector
`chooseNextWordWithDifficulty`, the performance analyzer
`analyzeResultsLocally` and the encouragement generator
`getEncouragementMessage`.

Conventions of the embedding:
* JavaScript numbers are modelled by `Nat`/`Int` where the source holds
  integers and by `ℚ` where the source divides (averages, accuracy).
* `Math.random()`-driven choices take an explicit oracle `k : Nat`; a JS
  pick `arr[Math.floor(Math.random() * arr.length)]` becomes
  `arr.getD (k % arr.length) default`.
* A possibly-absent numeric field is an `Option Nat`; the JS idiom
  `x || d` (which also replaces the falsy value `0`) is `jsOrD`.
* JS objects used as letter-keyed counters are insertion-ordered
  association lists, matching `Object.keys` enumeration order.
-/

namespace Joyverse

/-- One typed-word attempt record (an element of `typingResults`):
the target `word`, the child's `input`, the `correct` flag and the
optional numeric telemetry fields `timeSpent` (ms) and `hesitations`. -/
structure Attempt where
  word : String
  input : String
  correct : Bool
  timeSpent : Option Nat
  hesitations : Option Nat
deriving Repr, DecidableEq

/-- JS `x || d` on an optional numeric field: a missing field and the
falsy value `0` both yield the default `d`. -/
def jsOrD (x : Option Nat) (d : Nat) : Nat :=
  match x with
  | none => d
  | some n => if n = 0 then d else n

/-- JS `Math.round`: round half toward positive infinity, i.e. the floor
of `q + 1/2` (written computably; `Rat.floor_eq_div` links it to `⌊·⌋`). -/
def jsRound (q : ℚ) : ℤ := (q + 1/2).num / ((q + 1/2).den : ℤ)

/-- JS `String.prototype.toLowerCase`, character by character (the bank
and all attempt words are ASCII). -/
def jsToLower (s : String) : String := ⟨s.data.map Char.toLower⟩

/-- JS `String.prototype.toUpperCase`, character by character. -/
def jsToUpper (s : String) : String := ⟨s.data.map Char.toUpper⟩

/-- JS `w.includes(letter)` for a one-character `letter`. -/
def jsIncludes (w : String) (c : Char) : Bool := w.data.contains c

/-- The `easy` tier of the word bank `TYPING_WORDS` (verbatim, including
the duplicated `"lip"`). -/
def TYPING_WORDS_easy : List String :=
  ["cat", "dog", "sun", "bed", "leg", "pie", "bee", "sea", "tea", "pea",
   "lip", "lid", "bib", "did", "dad", "bad", "pad", "lad",
   "bat", "pat", "tap", "nap", "pan", "man", "fan", "van", "jam", "yam",
   "sip", "lip", "tip", "dip", "pip", "rip", "zip", "mop", "pop"]

/-- The `medium` tier of the word bank `TYPING_WORDS`. -/
def TYPING_WORDS_medium : List String :=
  ["bell", "dell", "pill", "bill", "peel", "deep", "beep", "peep", "pipe", "pale",
   "bale", "bail", "pail", "leap", "deal",
   "was", "saw", "no", "on", "top", "pot", "ten", "net",
   "thin", "chin", "ship", "shop", "cash", "dash", "wish", "fish",
   "mild", "wild", "kind", "mind", "bend", "lend", "send", "tend"]

/-- The `hard` tier of the word bank `TYPING_WORDS`. -/
def TYPING_WORDS_hard : List String :=
  ["pedal", "piped", "biped", "belle", "bleed", "bled", "idle", "bide", "pile", "piled",
   "deli", "bead", "lied", "bile",
   "dared", "bread", "brand", "grand", "blend", "trend", "flipped", "dripped",
   "thick", "think", "thank", "chunk", "shrimp", "crash", "flash", "splash",
   "below", "elbow", "window", "yellow", "mirror", "pillow", "shadow", "follow"]

/-- `TYPING_WORDS[difficulty]` for the three tier keys; any other key is
`undefined` in JS (a subsequent `.filter` would throw), modelled by `[]`
and excluded by the validity hypotheses of the theorems below. -/
def typingWordsAt (difficulty : String) : List String :=
  if difficulty = "easy" then TYPING_WORDS_easy
  else if difficulty = "medium" then TYPING_WORDS_medium
  else if difficulty = "hard" then TYPING_WORDS_hard
  else []

/-- `ALL_TYPING_WORDS`: the three tiers concatenated and deduplicated by
`.filter((v, i, a) => a.indexOf(v) === i)` (first occurrences kept). -/
def ALL_TYPING_WORDS : List String :=
  let a := TYPING_WORDS_easy ++ TYPING_WORDS_medium ++ TYPING_WORDS_hard
  (a.enum.filter (fun p => a.indexOf p.2 = p.1)).map Prod.snd

/-- `pickRandom(arr)`, the random index drawn by `Math.random` being
supplied by the oracle `k`. -/
def pickRandom (k : Nat) (arr : List String) : String :=
  arr.getD (k % arr.length) ""

/-- Increment of a JS-object counter `m[c] = (m[c] || 0) + w`: an
existing key keeps its place, a new key is appended (insertion order). -/
def bump : List (Char × Nat) → Char → Nat → List (Char × Nat)
  | [], c, w => [(c, w)]
  | (c', n) :: rest, c, w =>
    if c' = c then (c', n + w) :: rest else (c', n) :: bump rest c w

/-- `m[c] || 0`: the counter value of key `c`, defaulting to 0. -/
def lookupD : List (Char × Nat) → Char → Nat
  | [], _ => 0
  | (c₀, n) :: rest, c => if c₀ = c then n else lookupD rest c

/-- Position-by-position alignment of target and typed characters up to
the longer length; `none` models the JS empty-string placeholder
`s[i] || ''` at out-of-range positions. -/
def alignPairs (target typed : List Char) : List (Option Char × Option Char) :=
  (List.range (max target.length typed.length)).map
    (fun i => (target.get? i, typed.get? i))

/-- The inner loop of `getProblemLetterScores` for one incorrect attempt:
each aligned position whose target character is non-blank and differs
from the typed character bumps that target character by weight `w`. -/
def scoreIncorrectAttempt (m0 : List (Char × Nat)) (target typed : List Char)
    (w : Nat) : List (Char × Nat) :=
  (alignPairs target typed).foldl
    (fun m tu =>
      match tu.1 with
      | none => m
      | some t => if tu.2 = some t then m else bump m t w)
    m0

/-- `getProblemLetterScores(typingHistory)`: weighted per-letter error
counters over the incorrect attempts, weight 2 (`recentWeight`) when the
attempt index satisfies `index >= historyLength - 3`, else 1. -/
def getProblemLetterScores (typingHistory : List Attempt) : List (Char × Nat) :=
  let historyLength := typingHistory.length
  typingHistory.enum.foldl
    (fun m p =>
      if p.2.correct then m
      else
        let w := if p.1 + 3 ≥ historyLength then 2 else 1
        scoreIncorrectAttempt m (jsToLower p.2.word).data (jsToLower p.2.input).data w)
    []

/-- `typingHistory.slice(-5)`: the last `min 5 length` attempts. -/
def last5 (h : List Attempt) : List Attempt := h.drop (h.length - 5)

/-- Window accuracy of `calculateAdaptiveDifficulty`:
`last5.filter(r => r.correct).length / last5.length`. -/
def adaptiveAccuracy (h : List Attempt) : ℚ :=
  (((last5 h).filter (·.correct)).length : ℚ) / ((last5 h).length : ℚ)

/-- Window average time of `calculateAdaptiveDifficulty`:
`last5.reduce((sum, r) => sum + (r.timeSpent || 5000), 0) / last5.length`. -/
def adaptiveAvgTime (h : List Attempt) : ℚ :=
  (((last5 h).foldl (fun s r => s + jsOrD r.timeSpent 5000) 0 : Nat) : ℚ) /
    ((last5 h).length : ℚ)

/-- Window average hesitations of `calculateAdaptiveDifficulty`:
`last5.reduce((sum, r) => sum + (r.hesitations || 0), 0) / last5.length`. -/
def adaptiveAvgHes (h : List Attempt) : ℚ :=
  (((last5 h).foldl (fun s r => s + jsOrD r.hesitations 0) 0 : Nat) : ℚ) /
    ((last5 h).length : ℚ)

/-- `calculateAdaptiveDifficulty(typingHistory)`. -/
def calculateAdaptiveDifficulty (typingHistory : List Attempt) : String :=
  if typingHistory.length < 3 then "medium"
  else if adaptiveAccuracy typingHistory ≥ 4/5 ∧ adaptiveAvgTime typingHistory < 5000 ∧
      adaptiveAvgHes typingHistory < 2 then "hard"
  else if adaptiveAccuracy typingHistory < 1/2 ∨ adaptiveAvgHes typingHistory > 3 ∨
      adaptiveAvgTime typingHistory > 8000 then "easy"
  else "medium"

/-- `Object.keys(scores).sort((a, b) => (scores[b] || 0) - (scores[a] || 0))`:
the keys in descending score order; `insertionSort` is stable, matching
the stable sort mandated for JS arrays. -/
def sortKeysByScoreDesc (scores : List (Char × Nat)) : List Char :=
  List.insertionSort (fun a b => lookupD scores b ≤ lookupD scores a)
    (scores.map Prod.fst)

/-- `focusLetters.slice(0, 3)` for the selector history. -/
def topProblemLetters (h : List Attempt) : List Char :=
  (sortKeysByScoreDesc (getProblemLetterScores h)).take 3

/-- The candidate pool of `chooseNextWordWithDifficulty` after the
used-word filter and the first fallback: the requested tier minus the
lowercased used words, or, if that is empty, the full deduplicated bank
minus the used words. -/
def candidatePool (h : List Attempt) (usedWords : List String)
    (requestedDifficulty : Option String) : List String :=
  let used := usedWords.map jsToLower
  let difficulty := requestedDifficulty.getD (calculateAdaptiveDifficulty h)
  let candidates := (typingWordsAt difficulty).filter (fun w => !used.contains w)
  if candidates.isEmpty then ALL_TYPING_WORDS.filter (fun w => !used.contains w)
  else candidates

/-- The `for (const letter of focusLetters.slice(0, 3))` loop: the first
problem letter whose narrowed pool is non-empty wins; with no such
letter the pick falls through to the full candidate pool. -/
def focusLoop (k : Nat) (candidates : List String) : List Char → String
  | [] => pickRandom k candidates
  | l :: rest =>
    let subset := candidates.filter (fun w => jsIncludes w l)
    if subset.isEmpty then focusLoop k candidates rest
    else pickRandom k subset

/-- `chooseNextWordWithDifficulty(typingHistory, usedWords, requestedDifficulty)`.
When both used-word-filtered pools are empty the source returns
`pickRandom(ALL_TYPING_WORDS)` immediately, before any problem-letter
narrowing. -/
def chooseNextWordWithDifficulty (k : Nat) (typingHistory : List Attempt)
    (usedWords : List String) (requestedDifficulty : Option String) : String :=
  let candidates := candidatePool typingHistory usedWords requestedDifficulty
  if candidates.isEmpty then pickRandom k ALL_TYPING_WORDS
  else focusLoop k candidates (topProblemLetters typingHistory)

/-- The three JS-object counters built by the single `forEach` loop of
`analyzeResultsLocally`: `letterErrorCounts`, `letterOkCounts` and the
nested `confusionMap` (`target -> mistakenAs -> count`). -/
structure LetterCounts where
  err : List (Char × Nat)
  ok : List (Char × Nat)
  conf : List (Char × List (Char × Nat))
deriving Repr, DecidableEq

/-- `confusionMap[t] = confusionMap[t] || {}; confusionMap[t][u]++`. -/
def bumpConf : List (Char × List (Char × Nat)) → Char → Char →
    List (Char × List (Char × Nat))
  | [], t, u => [(t, [(u, 1)])]
  | (t', m) :: rest, t, u =>
    if t' = t then (t', bump m u 1) :: rest else (t', m) :: bumpConf rest t u

/-- The per-position body of the analyzer's `forEach`: a matching
non-blank target character bumps the ok-counter, a mismatch bumps the
error counter and, when the typed character is non-blank, the confusion
counter. -/
def countAttempt (st : LetterCounts) (target typed : List Char) : LetterCounts :=
  (alignPairs target typed).foldl
    (fun st tu =>
      match tu.1 with
      | none => st
      | some t =>
        if tu.2 = some t then { st with ok := bump st.ok t 1 }
        else
          let st1 := { st with err := bump st.err t 1 }
          match tu.2 with
          | none => st1
          | some u => { st1 with conf := bumpConf st1.conf t u })
    st

/-- The analyzer's letter/confusion counters over a whole attempt list. -/
def letterCounts (results : List Attempt) : LetterCounts :=
  results.foldl
    (fun st item => countAttempt st (jsToLower item.word).data (jsToLower item.input).data)
    ⟨[], [], []⟩

/-- One entry of `confusionPatterns`:
`{ confuses: withLetter, with: target, frequency }`. -/
structure ConfusionPattern where
  confuses : Char
  withLetter : Char
  frequency : Nat
deriving Repr, DecidableEq

/-- `confusionPatterns` built from `confusionMap`: per target letter the
top two mistaken-for letters (stable descending sort by count), dropping
self-confusion. -/
def confusionPatternsOf (conf : List (Char × List (Char × Nat))) :
    List ConfusionPattern :=
  (conf.map (fun p =>
    let mistakenAs := (List.insertionSort (fun a b => b.2 ≤ a.2) p.2).take 2
    (mistakenAs.filter (fun q => q.1 ≠ p.1)).map
      (fun q => ⟨q.1, p.1, lookupD p.2 q.1⟩))).flatten

/-- `overallAccuracy = totalWords > 0 ? Math.round((correctWords / totalWords) * 100) : 0`. -/
def analyzerOverallAccuracy (all : List Attempt) : ℤ :=
  if all.length > 0 then
    jsRound ((((all.filter (·.correct)).length : ℚ) / (all.length : ℚ)) * 100)
  else 0

/-- `avgTimeSpent` of the analyzer (note the `|| 0` default here, unlike
the estimator's `|| 5000`). -/
def analyzerAvgTimeSpent (all : List Attempt) : ℚ :=
  if all.length > 0 then
    ((all.foldl (fun s r => s + jsOrD r.timeSpent 0) 0 : Nat) : ℚ) / (all.length : ℚ)
  else 0

/-- `totalHesitations = all.reduce((sum, r) => sum + (r.hesitations || 0), 0)`. -/
def analyzerTotalHesitations (all : List Attempt) : Nat :=
  all.foldl (fun s r => s + jsOrD r.hesitations 0) 0

/-- `avgHesitations = all.length > 0 ? totalHesitations / all.length : 0`. -/
def analyzerAvgHesitations (all : List Attempt) : ℚ :=
  if all.length > 0 then ((analyzerTotalHesitations all : Nat) : ℚ) / (all.length : ℚ)
  else 0

/-- `recentAccuracy` over `all.slice(-5)`, as a raw percentage. -/
def analyzerRecentAccuracy (all : List Attempt) : ℚ :=
  if (last5 all).length > 0 then
    ((((last5 all).filter (·.correct)).length : ℚ) / ((last5 all).length : ℚ)) * 100
  else 0

/-- The `performanceMetrics` object; `avgHesitationsTenths` carries the
value of the formatted string `avgHesitations.toFixed(1)` in tenths. -/
structure PerformanceMetrics where
  avgTimeSpent : ℤ
  totalHesitations : Nat
  avgHesitationsTenths : ℤ
  isImproving : Bool
  recentAccuracy : ℤ
deriving Repr, DecidableEq

/-- The full return value of `analyzeResultsLocally`. -/
structure AnalysisResult where
  problematicLetters : List Char
  confusionPatterns : List ConfusionPattern
  strengths : List Char
  overallAccuracy : ℤ
  recommendations : List String
  severity : String
  emotionalState : String
  performanceMetrics : PerformanceMetrics
  encouragement : String
deriving Repr, DecidableEq

/-- The five message pools of `getEncouragementMessage`, with the
`messages[emotionalState] || messages.confident` default. -/
def messagesFor (emotionalState : String) : List String :=
  if emotionalState = "excelling" then
    ["🌟 Outstanding work! You\x27re a typing superstar!",
     "🚀 Incredible progress! Keep up the amazing effort!",
     "🏆 You\x27re mastering these letters beautifully!"]
  else if emotionalState = "confident" then
    ["💪 Great job! You\x27re doing really well!",
     "⭐ Nice progress! Keep practicing!",
     "🎯 You\x27re on the right track!"]
  else if emotionalState = "challenged" then
    ["🌈 You\x27re learning and improving every day!",
     "💝 Keep going! Every practice helps!",
     "🌱 You\x27re making steady progress!"]
  else if emotionalState = "struggling" then
    ["💙 Learning takes time - you\x27re doing great!",
     "🌟 Every attempt makes you stronger!",
     "🤗 It\x27s okay to find this challenging - keep trying!"]
  else if emotionalState = "frustrated" then
    ["💝 Take a break if needed - you\x27re doing your best!",
     "🌈 Remember, progress isn\x27t always linear!",
     "🫂 You\x27re working hard, and that\x27s what matters!"]
  else
    ["💪 Great job! You\x27re doing really well!",
     "⭐ Nice progress! Keep practicing!",
     "🎯 You\x27re on the right track!"]

/-- `getEncouragementMessage(emotionalState, accuracy)`; the random
index is the oracle `k` (the `accuracy` argument is unused, as in the
source). -/
def getEncouragementMessage (k : Nat) (emotionalState : String)
    (accuracy : ℤ) : String :=
  let stateMessages := messagesFor emotionalState
  stateMessages.getD (k % stateMessages.length) ""

/-- `analyzeResultsLocally(results)`, with the encouragement pick's
random index supplied by the oracle `k`. -/
def analyzeResultsLocally (k : Nat) (results : List Attempt) : AnalysisResult :=
  let all := results
  let overallAccuracy := analyzerOverallAccuracy all
  let counts := letterCounts all
  let avgTimeSpent := analyzerAvgTimeSpent all
  let totalHesitations := analyzerTotalHesitations all
  let avgHesitations := analyzerAvgHesitations all
  let problematicLetters := sortKeysByScoreDesc counts.err
  let strengths :=
    List.insertionSort (fun a b => lookupD counts.ok b ≤ lookupD counts.ok a)
      ((counts.ok.map Prod.fst).filter
        (fun l => decide (lookupD counts.err l ≤ lookupD counts.ok l)))
  let confusionPatterns := confusionPatternsOf counts.conf
  let severity :=
    if overallAccuracy < 60 then "severe"
    else if overallAccuracy < 80 then "moderate"
    else "mild"
  let emotionalState :=
    if avgHesitations > 5/2 ∨ avgTimeSpent > 7000 then "frustrated"
    else if overallAccuracy < 60 then "struggling"
    else if overallAccuracy < 80 then "challenged"
    else if overallAccuracy ≥ 90 then "excelling"
    else "confident"
  let recommendations :=
    (if problematicLetters.isEmpty then [] else
      ["🎯 Focus practice on these letters: " ++
        jsToUpper (String.intercalate ", "
          ((problematicLetters.take 5).map String.singleton))]) ++
    (if confusionPatterns.isEmpty then [] else
      ["🔄 Work on distinguishing: " ++
        jsToUpper (String.intercalate ", "
          ((confusionPatterns.take 3).map
            (fun p => String.singleton p.confuses ++ "/" ++
              String.singleton p.withLetter)))]) ++
    (if avgHesitations > 2 then
      ["⏸️ Use visual letter cards to reduce hesitation",
       "💝 Practice in shorter, more frequent sessions"] else []) ++
    (if overallAccuracy ≥ 90 then
      ["🌟 Excellent progress! Ready for more challenging words"]
     else if overallAccuracy < 70 then
      ["🌱 Start with simpler 3-letter words for confidence",
       "👁️ Use multisensory techniques (trace letters while saying them)"]
     else []) ++
    (if avgTimeSpent > 7000 then
      ["🐢 Take time to sound out each letter - no rush!"]
     else if avgTimeSpent < 3000 then
      ["⚡ Great speed! Focus on accuracy next"]
     else [])
  let recentAccuracy := analyzerRecentAccuracy all
  { problematicLetters := problematicLetters
    confusionPatterns := confusionPatterns
    strengths := strengths
    overallAccuracy := overallAccuracy
    recommendations := recommendations
    severity := severity
    emotionalState := emotionalState
    performanceMetrics :=
      { avgTimeSpent := jsRound avgTimeSpent
        totalHesitations := totalHesitations
        avgHesitationsTenths := jsRound (10 * avgHesitations)
        isImproving := decide (recentAccuracy > (overallAccuracy : ℚ))
        recentAccuracy := jsRound recentAccuracy }
    encouragement := getEncouragementMessage k emotionalState overallAccuracy }

/-- A JavaScript value handed to the analysis functions as the history
argument: `undefined`, `null`, an array of attempts, or any truthy
non-array value (e.g. a plain object). -/
inductive JsHistory where
  | undef
  | nullv
  | arr (l : List Attempt)
  | obj
deriving Repr, DecidableEq

/-- The call semantics of `analyzeResultsLocally` on a raw JS value:
`const all = results || []` replaces the falsy `undefined`/`null` by
`[]`, but a truthy non-array value flows into `all.filter(...)`, which
raises `TypeError: all.filter is not a function`. -/
def analyzeResultsLocallyJs (k : Nat) : JsHistory → Except String AnalysisResult
  | .undef => .ok (analyzeResultsLocally k [])
  | .nullv => .ok (analyzeResultsLocally k [])
  | .arr l => .ok (analyzeResultsLocally k l)
  | .obj => .error "TypeError: all.filter is not a function"

/-- The call semantics of `calculateAdaptiveDifficulty` on a raw JS
value: it reads `typingHistory.length` with no `|| []` guard, so
`undefined`/`null` raise a TypeError at once; a truthy non-array value
passes the `length < 3` test (`undefined < 3` is false) and then raises
at `typingHistory.slice(-5)`. -/
def calculateAdaptiveDifficultyJs : JsHistory → Except String String
  | .undef => .error "TypeError: Cannot read properties of undefined (reading length)"
  | .nullv => .error "TypeError: Cannot read properties of null (reading length)"
  | .arr l => .ok (calculateAdaptiveDifficulty l)
  | .obj => .error "TypeError: typingHistory.slice is not a function"

/-- The spec scenario: 10 attempts, 4 correct, every hesitation count 4. -/
def scenarioTenAttempts : List Attempt :=
  List.replicate 4 ⟨"cat", "cat", true, none, some 4⟩ ++
  List.replicate 6 ⟨"cat", "bat", false, none, some 4⟩

/-- The spec scenario: five attempts on "cat", typed
"cat", "bat", "cat", "kat", "cat". -/
def scenarioCat : List Attempt :=
  [⟨"cat", "cat", true, none, none⟩, ⟨"cat", "bat", false, none, none⟩,
   ⟨"cat", "cat", true, none, none⟩, ⟨"cat", "kat", false, none, none⟩,
   ⟨"cat", "cat", true, none, none⟩]

/-- A one-attempt history whose only error letter is `c` (target "cat",
typed "kat"). -/
def historyKat : List Attempt := [⟨"cat", "kat", false, none, none⟩]

/-- A three-attempt history, all correct, fast and hesitation-free. -/
def historyFast : List Attempt :=
  [⟨"cat", "cat", true, some 1000, some 0⟩, ⟨"dog", "dog", true, some 1000, some 0⟩,
   ⟨"sun", "sun", true, some 1000, some 0⟩]

/-- A three-attempt history in which no attempt carries a `timeSpent`. -/
def historyNoTimes : List Attempt :=
  [⟨"cat", "cat", true, none, some 0⟩, ⟨"dog", "dog", true, some 0, some 0⟩,
   ⟨"sun", "sun", true, none, some 0⟩]

/-- A one-attempt history giving letter `a` one ok-count and one
error-count (target "aa", typed "ab"). -/
def historyBalanced : List Attempt := [⟨"aa", "ab", false, none, none⟩]

/-! Helper lemmas. The `local semireducible` attribute undoes the
elaborator-level irreducibility of the Batteries rational arithmetic so
that concrete scenarios evaluate by `decide` (the kernel itself never
respected the attribute; this changes nothing logically). -/

attribute [local semireducible] Rat.add Rat.mul Rat.inv Rat.sub

lemma jsRound_eq_floor (q : ℚ) : jsRound q = ⌊q + 1/2⌋ := by
  rw [jsRound, Rat.floor_def]

lemma pickRandom_mem {arr : List String} (k : Nat) (h : arr ≠ []) :
    pickRandom k arr ∈ arr := by
  have hlen : 0 < arr.length := List.length_pos.mpr h
  have hk : k % arr.length < arr.length := Nat.mod_lt _ hlen
  rw [pickRandom, List.getD_eq_getElem?_getD, List.getElem?_eq_getElem hk]
  exact List.getElem_mem hk

lemma focusLoop_mem {cands : List String} (k : Nat) (h : cands ≠ []) :
    ∀ letters : List Char, focusLoop k cands letters ∈ cands := by
  intro letters
  induction letters with
  | nil => exact pickRandom_mem k h
  | cons l rest ih =>
    rw [focusLoop]
    by_cases hs : (cands.filter (fun w => jsIncludes w l)).isEmpty
    · simpa [hs] using ih
    · have hne : cands.filter (fun w => jsIncludes w l) ≠ [] := by
        simpa [List.isEmpty_iff] using hs
      have := pickRandom_mem k hne
      simp only [hs, if_false]
      exact (List.mem_filter.mp this).1

lemma focusLoop_eq_findSome (k : Nat) (cands : List String) :
    ∀ letters : List Char,
      focusLoop k cands letters =
        match letters.findSome?
            (fun l =>
              let s := cands.filter (fun w => jsIncludes w l)
              if s.isEmpty then none else some s) with
        | some pool => pickRandom k pool
        | none => pickRandom k cands := by
  intro letters
  induction letters with
  | nil => rfl
  | cons l rest ih =>
    rw [focusLoop, List.findSome?_cons]
    by_cases hs : (cands.filter (fun w => jsIncludes w l)).isEmpty
    · simp only [hs, if_true, ih]
    · rw [Bool.not_eq_true] at hs
      simp only [hs, Bool.false_eq_true, if_false]

lemma lookupD_bump (m : List (Char × Nat)) (c : Char) (w : Nat) (c' : Char) :
    lookupD (bump m c w) c' = lookupD m c' + (if c' = c then w else 0) := by
  induction m with
  | nil =>
    by_cases h : c' = c
    · subst h; simp [bump, lookupD]
    · have h' : ¬c = c' := fun hh => h hh.symm
      simp [bump, lookupD, h, h']
  | cons p rest ih =>
    obtain ⟨c₀, n⟩ := p
    rw [bump]
    by_cases h0 : c₀ = c
    · subst h0
      by_cases h1 : c₀ = c'
      · subst h1; simp [lookupD]
      · have h1' : ¬c' = c₀ := fun hh => h1 hh.symm
        simp [lookupD, h1, h1']
    · by_cases h1 : c₀ = c'
      · subst h1
        simp [lookupD, h0]
      · simp [lookupD, h0, h1, ih]

lemma posCounts_bump {m : List (Char × Nat)} {w : Nat}
    (hm : ∀ p ∈ m, 0 < p.2) (hw : 0 < w) (c : Char) :
    ∀ p ∈ bump m c w, 0 < p.2 := by
  induction m with
  | nil => simpa [bump] using hw
  | cons q rest ih =>
    obtain ⟨c₀, n⟩ := q
    rw [bump]
    by_cases h0 : c₀ = c
    · simp only [h0, if_true]
      intro p hp
      rcases List.mem_cons.mp hp with h | h
      · subst h; exact Nat.lt_of_lt_of_le hw (Nat.le_add_left _ _)
      · exact hm p (List.mem_cons_of_mem _ h)
    · simp only [h0, if_false]
      intro p hp
      rcases List.mem_cons.mp hp with h | h
      · subst h; exact hm _ (List.mem_cons_self _ _)
      · exact ih (fun q hq => hm q (List.mem_cons_of_mem _ hq)) p h

lemma lookupD_pos_iff_mem {m : List (Char × Nat)}
    (hm : ∀ p ∈ m, 0 < p.2) (c : Char) :
    0 < lookupD m c ↔ c ∈ m.map Prod.fst := by
  induction m with
  | nil => simp [lookupD]
  | cons p rest ih =>
    obtain ⟨c₀, n⟩ := p
    by_cases h0 : c₀ = c
    · subst h0
      have hn : 0 < n := hm _ (List.mem_cons_self _ _)
      simp [lookupD, hn]
    · rw [lookupD]
      simp only [h0, if_false, List.map_cons, List.mem_cons]
      rw [ih (fun q hq => hm q (List.mem_cons_of_mem _ hq))]
      constructor
      · exact Or.inr
      · rintro (h | h)
        · exact absurd h.symm h0
        · exact h

lemma foldl_preserves {σ α : Type} (P : σ → Prop) (step : σ → α → σ)
    (hstep : ∀ s a, P s → P (step s a)) :
    ∀ (l : List α) (s : σ), P s → P (l.foldl step s) := by
  intro l
  induction l with
  | nil => simpa using fun s h => h
  | cons a rest ih => exact fun s h => ih _ (hstep s a h)

lemma foldl_add_const {α : Type} (f : α → Nat) (c : Nat) :
    ∀ (l : List α), (∀ a ∈ l, f a = c) →
      ∀ init : Nat, l.foldl (fun s r => s + f r) init = init + c * l.length := by
  intro l
  induction l with
  | nil => simp
  | cons a rest ih =>
    intro h init
    rw [List.foldl_cons, ih (fun b hb => h b (List.mem_cons_of_mem _ hb)),
      h a (List.mem_cons_self _ _), List.length_cons]
    ring

set_option maxRecDepth 1000000
set_option maxHeartbeats 2000000

/-- The window of `calculateAdaptiveDifficulty` is the last
`min 5 length` attempts. -/
lemma last5_length (h : List Attempt) : (last5 h).length = min 5 h.length := by
  rw [last5, List.length_drop]
  omega

/-- C1: the Performance Analyzer assigns `emotionalState` from accuracy
(`struggling` < 60, `challenged` < 80, `excelling` ≥ 90, else
`confident`) and overrides it to `frustrated` whenever
`avgHesitations > 2.5` or `avgTimeSpent > 7000`, regardless of the
accuracy class; in particular 10 attempts with 4 correct and average
hesitations 4 yield `frustrated`. -/
theorem emotionalState_classification (k : Nat) (results : List Attempt) :
    (analyzeResultsLocally k results).emotionalState =
      (if analyzerAvgHesitations results > 5/2 ∨ analyzerAvgTimeSpent results > 7000
        then "frustrated"
        else if analyzerOverallAccuracy results < 60 then "struggling"
        else if analyzerOverallAccuracy results < 80 then "challenged"
        else if analyzerOverallAccuracy results ≥ 90 then "excelling"
        else "confident") ∧
    (analyzeResultsLocally k scenarioTenAttempts).emotionalState = "frustrated" ∧
    analyzerOverallAccuracy scenarioTenAttempts = 40 ∧
    analyzerAvgHesitations scenarioTenAttempts = 4 := by
  refine ⟨rfl, ?_, by decide, by decide⟩
  have hk : (analyzeResultsLocally k scenarioTenAttempts).emotionalState =
      (analyzeResultsLocally 0 scenarioTenAttempts).emotionalState := rfl
  rw [hk]
  decide

/-- C2: the Difficulty Estimator returns `medium` on histories shorter
than 3; on longer histories it works over the last `min 5 length`
attempts and returns `hard` exactly when accuracy ≥ 0.8, average time
< 5000 and average hesitations < 2, returns `easy` exactly when that
fails and accuracy < 0.5 or average hesitations > 3 or average time
> 8000, and `medium` otherwise. -/
theorem calculateAdaptiveDifficulty_spec (h : List Attempt) :
    (last5 h).length = min 5 h.length ∧
    (h.length < 3 → calculateAdaptiveDifficulty h = "medium") ∧
    (3 ≤ h.length →
      (calculateAdaptiveDifficulty h = "hard" ↔
        adaptiveAccuracy h ≥ 4/5 ∧ adaptiveAvgTime h < 5000 ∧ adaptiveAvgHes h < 2) ∧
      (calculateAdaptiveDifficulty h = "easy" ↔
        ¬(adaptiveAccuracy h ≥ 4/5 ∧ adaptiveAvgTime h < 5000 ∧ adaptiveAvgHes h < 2) ∧
        (adaptiveAccuracy h < 1/2 ∨ adaptiveAvgHes h > 3 ∨ adaptiveAvgTime h > 8000)) ∧
      (calculateAdaptiveDifficulty h = "medium" ↔
        ¬(adaptiveAccuracy h ≥ 4/5 ∧ adaptiveAvgTime h < 5000 ∧ adaptiveAvgHes h < 2) ∧
        ¬(adaptiveAccuracy h < 1/2 ∨ adaptiveAvgHes h > 3 ∨ adaptiveAvgTime h > 8000))) := by
  refine ⟨last5_length h, fun hlt => ?_, fun hge => ?_⟩
  · rw [calculateAdaptiveDifficulty, if_pos hlt]
  · have hnlt : ¬h.length < 3 := by omega
    rw [calculateAdaptiveDifficulty, if_neg hnlt]
    by_cases hhard : adaptiveAccuracy h ≥ 4/5 ∧ adaptiveAvgTime h < 5000 ∧
        adaptiveAvgHes h < 2
    · rw [if_pos hhard]
      exact ⟨iff_of_true rfl hhard,
        iff_of_false (by decide) (fun hc => hc.1 hhard),
        iff_of_false (by decide) (fun hc => hc.1 hhard)⟩
    · rw [if_neg hhard]
      by_cases heasy : adaptiveAccuracy h < 1/2 ∨ adaptiveAvgHes h > 3 ∨
          adaptiveAvgTime h > 8000
      · rw [if_pos heasy]
        exact ⟨iff_of_false (by decide) hhard,
          iff_of_true rfl ⟨hhard, heasy⟩,
          iff_of_false (by decide) (fun hc => hc.2 heasy)⟩
      · rw [if_neg heasy]
        exact ⟨iff_of_false (by decide) hhard,
          iff_of_false (by decide) (fun hc => heasy hc.2),
          iff_of_true rfl ⟨hhard, heasy⟩⟩

/-- Witness for C2: the empty history gives `medium`; a fast, perfect
3-attempt history gives `hard` through the characterization. -/
theorem calculateAdaptiveDifficulty_spec_witness :
    (([] : List Attempt).length < 3 ∧ calculateAdaptiveDifficulty [] = "medium") ∧
    (3 ≤ historyFast.length ∧ calculateAdaptiveDifficulty historyFast = "hard") :=
  ⟨⟨by decide, (calculateAdaptiveDifficulty_spec []).2.1 (by decide)⟩,
   ⟨by decide,
    (((calculateAdaptiveDifficulty_spec historyFast).2.2 (by decide)).1).mpr (by decide)⟩⟩

/-- C5: `overallAccuracy` equals `round(100 * correctCount / total)`,
is 0 on the empty list, and always lies in `[0, 100]`. -/
theorem overallAccuracy_spec (k : Nat) (results : List Attempt) :
    (analyzeResultsLocally k results).overallAccuracy =
      (if results.length = 0 then 0
       else jsRound (100 * ((results.filter (·.correct)).length : ℚ) / (results.length : ℚ))) ∧
    0 ≤ (analyzeResultsLocally k results).overallAccuracy ∧
    (analyzeResultsLocally k results).overallAccuracy ≤ 100 ∧
    (analyzeResultsLocally k []).overallAccuracy = 0 := by
  have hfield : (analyzeResultsLocally k results).overallAccuracy =
      analyzerOverallAccuracy results := rfl
  by_cases ht : results.length = 0
  · rw [hfield, analyzerOverallAccuracy, if_neg (by omega), if_pos ht]
    exact ⟨rfl, le_refl 0, by decide, rfl⟩
  · have htpos : 0 < results.length := Nat.pos_of_ne_zero ht
    have htq : (0 : ℚ) < (results.length : ℚ) := by exact_mod_cast htpos
    have hq0 : 0 ≤ (((results.filter (·.correct)).length : ℚ) / (results.length : ℚ)) * 100 :=
      mul_nonneg (div_nonneg (Nat.cast_nonneg _) (Nat.cast_nonneg _)) (by norm_num)
    have hq100 : (((results.filter (·.correct)).length : ℚ) / (results.length : ℚ)) * 100 ≤ 100 := by
      have hle : ((results.filter (·.correct)).length : ℚ) ≤ (results.length : ℚ) := by
        exact_mod_cast List.length_filter_le _ _
      have hdiv : ((results.filter (·.correct)).length : ℚ) / (results.length : ℚ) ≤ 1 :=
        (div_le_one htq).mpr hle
      calc (((results.filter (·.correct)).length : ℚ) / (results.length : ℚ)) * 100
          ≤ 1 * 100 := mul_le_mul_of_nonneg_right hdiv (by norm_num)
        _ = 100 := one_mul 100
    refine ⟨?_, ?_, ?_, rfl⟩
    · rw [hfield, analyzerOverallAccuracy, if_pos htpos, if_neg ht]
      congr 1
      ring
    · rw [hfield, analyzerOverallAccuracy, if_pos htpos, jsRound_eq_floor]
      exact Int.floor_nonneg.mpr (by linarith)
    · rw [hfield, analyzerOverallAccuracy, if_pos htpos, jsRound_eq_floor]
      have : (((results.filter (·.correct)).length : ℚ) / (results.length : ℚ)) * 100 + 1/2 <
          ((100 : ℤ) : ℚ) + 1 := by push_cast; linarith
      exact (Int.floor_le_iff).mpr this

/-- C9: on the five-attempt "cat" history (typed "cat", "bat", "cat",
"kat", "cat"), the analyzer counts 2 errors for letter `c`, reports the
confusion pairs (c mistyped as b, frequency 1) and (c mistyped as k,
frequency 1), and computes `overallAccuracy = 60`. -/
theorem scenarioCat_analysis :
    lookupD (letterCounts scenarioCat).err 'c' = 2 ∧
    (⟨'b', 'c', 1⟩ : ConfusionPattern) ∈ (analyzeResultsLocally 0 scenarioCat).confusionPatterns ∧
    (⟨'k', 'c', 1⟩ : ConfusionPattern) ∈ (analyzeResultsLocally 0 scenarioCat).confusionPatterns ∧
    (analyzeResultsLocally 0 scenarioCat).overallAccuracy = 60 := by decide

/-- C10: a missing (or zero, since zero is falsy) `timeSpent`
contributes 5000 ms to the estimator's window average; with every
windowed attempt lacking a time, the average is exactly 5000, `hard`
(which needs average < 5000) is unreachable, and the time-based `easy`
condition (average > 8000) never fires. -/
theorem adaptiveTime_default_spec (h : List Attempt)
    (hlen : 3 ≤ h.length)
    (hmiss : ∀ a ∈ last5 h, a.timeSpent = none ∨ a.timeSpent = some 0) :
    jsOrD none 5000 = 5000 ∧ jsOrD (some 0) 5000 = 5000 ∧
    adaptiveAvgTime h = 5000 ∧
    calculateAdaptiveDifficulty h ≠ "hard" ∧
    ¬(adaptiveAvgTime h > 8000) ∧
    (calculateAdaptiveDifficulty h = "easy" ↔
      adaptiveAccuracy h < 1/2 ∨ adaptiveAvgHes h > 3) := by
  have hnlt : ¬h.length < 3 := by omega
  have hn0 : (last5 h).length ≠ 0 := by rw [last5_length]; omega
  have hconst : ∀ a ∈ last5 h, (fun r => jsOrD r.timeSpent 5000) a = 5000 := by
    intro a ha
    rcases hmiss a ha with hh | hh <;> simp [jsOrD, hh]
  have hsum := foldl_add_const (fun r => jsOrD r.timeSpent 5000) 5000 (last5 h) hconst 0
  have havg : adaptiveAvgTime h = 5000 := by
    rw [adaptiveAvgTime, hsum]
    have hcast : ((0 + 5000 * (last5 h).length : Nat) : ℚ) =
        5000 * (((last5 h).length : Nat) : ℚ) := by push_cast; ring
    rw [hcast, mul_div_assoc, div_self (Nat.cast_ne_zero.mpr hn0), mul_one]
  have hhardF : ¬(adaptiveAccuracy h ≥ 4/5 ∧ adaptiveAvgTime h < 5000 ∧
      adaptiveAvgHes h < 2) := by
    rintro ⟨-, h2, -⟩
    rw [havg] at h2
    exact lt_irrefl _ h2
  have h8000 : ¬(adaptiveAvgTime h > 8000) := by rw [havg]; norm_num
  refine ⟨rfl, rfl, havg, ?_, h8000, ?_⟩
  · rw [calculateAdaptiveDifficulty, if_neg hnlt, if_neg hhardF]
    split_ifs <;> decide
  · rw [calculateAdaptiveDifficulty, if_neg hnlt, if_neg hhardF]
    by_cases he : adaptiveAccuracy h < 1/2 ∨ adaptiveAvgHes h > 3
    · have hfull : adaptiveAccuracy h < 1/2 ∨ adaptiveAvgHes h > 3 ∨
          adaptiveAvgTime h > 8000 := by tauto
      rw [if_pos hfull]
      exact iff_of_true rfl he
    · have hfull : ¬(adaptiveAccuracy h < 1/2 ∨ adaptiveAvgHes h > 3 ∨
          adaptiveAvgTime h > 8000) := by tauto
      rw [if_neg hfull]
      exact iff_of_false (by decide) he

/-- Witness for C10: a three-attempt history with no recorded times (one
of them a falsy zero) averages 5000 and is not classified `hard`. -/
theorem adaptiveTime_default_spec_witness :
    (3 ≤ historyNoTimes.length ∧
      ∀ a ∈ last5 historyNoTimes, a.timeSpent = none ∨ a.timeSpent = some 0) ∧
    adaptiveAvgTime historyNoTimes = 5000 ∧
    calculateAdaptiveDifficulty historyNoTimes ≠ "hard" :=
  ⟨⟨by decide, by decide⟩,
   (adaptiveTime_default_spec historyNoTimes (by decide) (by decide)).2.2.1,
   (adaptiveTime_default_spec historyNoTimes (by decide) (by decide)).2.2.2.1⟩

/-- C6 counterexample: a truthy non-array history makes the analyzer
raise a TypeError instead of degrading, and the difficulty estimator
raises already on a null history. -/
theorem analyzeJs_raises_cex :
    analyzeResultsLocallyJs 0 JsHistory.obj =
      Except.error "TypeError: all.filter is not a function" ∧
    calculateAdaptiveDifficultyJs JsHistory.nullv =
      Except.error "TypeError: Cannot read properties of null (reading length)" :=
  ⟨rfl, rfl⟩

/-- C6 amended: the analyzer degrades to the neutral result (accuracy 0)
on a missing or null history and tolerates the empty list; only array
histories are safe for the estimator, which returns `medium` on the
empty array. -/
theorem analyzeJs_degrades_spec (k : Nat) (l : List Attempt) :
    analyzeResultsLocallyJs k JsHistory.undef = Except.ok (analyzeResultsLocally k []) ∧
    analyzeResultsLocallyJs k JsHistory.nullv = Except.ok (analyzeResultsLocally k []) ∧
    analyzeResultsLocallyJs k (JsHistory.arr l) = Except.ok (analyzeResultsLocally k l) ∧
    (analyzeResultsLocally k []).overallAccuracy = 0 ∧
    calculateAdaptiveDifficultyJs (JsHistory.arr []) = Except.ok "medium" :=
  ⟨rfl, rfl, rfl, rfl, rfl⟩

/-- C7: the analysis is a pure function of the attempt list plus the
random draw used for encouragement: all fields except `encouragement`
agree between two calls with different draws, and `encouragement` is
itself determined by the draw, the computed state and the accuracy. -/
theorem analyze_deterministic (results : List Attempt) (k₁ k₂ : Nat) :
    (analyzeResultsLocally k₁ results).overallAccuracy =
      (analyzeResultsLocally k₂ results).overallAccuracy ∧
    (analyzeResultsLocally k₁ results).problematicLetters =
      (analyzeResultsLocally k₂ results).problematicLetters ∧
    (analyzeResultsLocally k₁ results).strengths =
      (analyzeResultsLocally k₂ results).strengths ∧
    (analyzeResultsLocally k₁ results).confusionPatterns =
      (analyzeResultsLocally k₂ results).confusionPatterns ∧
    (analyzeResultsLocally k₁ results).severity =
      (analyzeResultsLocally k₂ results).severity ∧
    (analyzeResultsLocally k₁ results).emotionalState =
      (analyzeResultsLocally k₂ results).emotionalState ∧
    (analyzeResultsLocally k₁ results).performanceMetrics =
      (analyzeResultsLocally k₂ results).performanceMetrics ∧
    (analyzeResultsLocally k₁ results).recommendations =
      (analyzeResultsLocally k₂ results).recommendations ∧
    (analyzeResultsLocally k₁ results).encouragement =
      getEncouragementMessage k₁ (analyzeResultsLocally k₁ results).emotionalState
        (analyzeResultsLocally k₁ results).overallAccuracy :=
  ⟨rfl, rfl, rfl, rfl, rfl, rfl, rfl, rfl, rfl⟩

lemma countAttempt_pos {st : LetterCounts} (target typed : List Char)
    (h : (∀ p ∈ st.err, 0 < p.2) ∧ (∀ p ∈ st.ok, 0 < p.2)) :
    (∀ p ∈ (countAttempt st target typed).err, 0 < p.2) ∧
    (∀ p ∈ (countAttempt st target typed).ok, 0 < p.2) := by
  rw [countAttempt]
  refine foldl_preserves
    (fun s => (∀ p ∈ s.err, 0 < p.2) ∧ (∀ p ∈ s.ok, 0 < p.2)) _ ?_ _ st h
  intro s tu hs
  obtain ⟨tc, uc⟩ := tu
  dsimp only
  rcases tc with - | t
  · exact hs
  · rcases uc with - | u
    · dsimp only
      rw [if_neg (by simp)]
      exact ⟨posCounts_bump hs.1 one_pos t, hs.2⟩
    · dsimp only
      by_cases he : (some u : Option Char) = some t
      · rw [if_pos he]
        exact ⟨hs.1, posCounts_bump hs.2 one_pos t⟩
      · rw [if_neg he]
        exact ⟨posCounts_bump hs.1 one_pos t, hs.2⟩

lemma letterCounts_pos (results : List Attempt) :
    (∀ p ∈ (letterCounts results).err, 0 < p.2) ∧
    (∀ p ∈ (letterCounts results).ok, 0 < p.2) := by
  rw [letterCounts]
  exact foldl_preserves
    (fun st => (∀ p ∈ st.err, 0 < p.2) ∧ (∀ p ∈ st.ok, 0 < p.2)) _
    (fun (st : LetterCounts) (item : Attempt) hst => countAttempt_pos _ _ hst)
    results ⟨[], [], []⟩ ⟨by simp, by simp⟩

/-- C8: a letter appears in `problematicLetters` exactly when its error
count is positive, and in `strengths` exactly when its ok-count is
positive and at least its error count; hence a letter with equal nonzero
counts appears in both lists. -/
theorem problematic_strengths_spec (k : Nat) (results : List Attempt) (c : Char) :
    (c ∈ (analyzeResultsLocally k results).problematicLetters ↔
      0 < lookupD (letterCounts results).err c) ∧
    (c ∈ (analyzeResultsLocally k results).strengths ↔
      0 < lookupD (letterCounts results).ok c ∧
      lookupD (letterCounts results).err c ≤ lookupD (letterCounts results).ok c) ∧
    (0 < lookupD (letterCounts results).ok c ∧
      lookupD (letterCounts results).ok c = lookupD (letterCounts results).err c →
      c ∈ (analyzeResultsLocally k results).strengths ∧
      c ∈ (analyzeResultsLocally k results).problematicLetters) := by
  obtain ⟨herr, hok⟩ := letterCounts_pos results
  have h1 : (analyzeResultsLocally k results).problematicLetters =
      sortKeysByScoreDesc (letterCounts results).err := rfl
  have h2 : (analyzeResultsLocally k results).strengths =
      List.insertionSort
        (fun a b => lookupD (letterCounts results).ok b ≤ lookupD (letterCounts results).ok a)
        (((letterCounts results).ok.map Prod.fst).filter
          (fun l => decide (lookupD (letterCounts results).err l ≤
            lookupD (letterCounts results).ok l))) := rfl
  have hiff1 : c ∈ (analyzeResultsLocally k results).problematicLetters ↔
      0 < lookupD (letterCounts results).err c := by
    rw [h1, sortKeysByScoreDesc, List.mem_insertionSort]
    exact (lookupD_pos_iff_mem herr c).symm
  have hiff2 : c ∈ (analyzeResultsLocally k results).strengths ↔
      0 < lookupD (letterCounts results).ok c ∧
      lookupD (letterCounts results).err c ≤ lookupD (letterCounts results).ok c := by
    rw [h2, List.mem_insertionSort, List.mem_filter,
      ← lookupD_pos_iff_mem hok c, decide_eq_true_eq]
  refine ⟨hiff1, hiff2, fun hc => ?_⟩
  exact ⟨hiff2.mpr ⟨hc.1, by omega⟩, hiff1.mpr (by omega)⟩

/-- Witness for C8: after one attempt with target "aa" and typed "ab",
letter `a` has one ok-count and one error count, so it appears in both
`strengths` and `problematicLetters`. -/
theorem problematic_strengths_spec_witness :
    (0 < lookupD (letterCounts historyBalanced).ok 'a' ∧
      lookupD (letterCounts historyBalanced).ok 'a' =
        lookupD (letterCounts historyBalanced).err 'a') ∧
    'a' ∈ (analyzeResultsLocally 0 historyBalanced).strengths ∧
    'a' ∈ (analyzeResultsLocally 0 historyBalanced).problematicLetters :=
  ⟨by decide, (problematic_strengths_spec 0 historyBalanced 'a').2.2 (by decide)⟩

lemma all_words_lowercase : ∀ w ∈ ALL_TYPING_WORDS, jsToLower w = w := by decide

lemma tiers_subset_all :
    ∀ w ∈ TYPING_WORDS_easy ++ TYPING_WORDS_medium ++ TYPING_WORDS_hard,
      w ∈ ALL_TYPING_WORDS := by decide

lemma typingWordsAt_sub (d : String) : ∀ w ∈ typingWordsAt d, w ∈ ALL_TYPING_WORDS := by
  intro w hw
  rw [typingWordsAt] at hw
  split_ifs at hw
  · exact tiers_subset_all w (by simp [hw])
  · exact tiers_subset_all w (by simp [hw])
  · exact tiers_subset_all w (by simp [hw])
  · simp at hw

/-- C3: the Word Selector never returns a word already used
(case-insensitively) unless the used words exhaust the whole bank; an
exhausted tier falls back to the deduplicated bank minus the used words,
and only when that too is empty does the pick come from the unfiltered
bank. -/
theorem chooseNextWord_no_reuse (k : Nat) (h : List Attempt) (used : List String)
    (req : Option String)
    (hreq : req = none ∨ req = some "easy" ∨ req = some "medium" ∨ req = some "hard") :
    (jsToLower (chooseNextWordWithDifficulty k h used req) ∈ used.map jsToLower →
      ∀ w ∈ ALL_TYPING_WORDS, w ∈ used.map jsToLower) ∧
    (ALL_TYPING_WORDS.filter (fun w => !(used.map jsToLower).contains w) = [] →
      chooseNextWordWithDifficulty k h used req = pickRandom k ALL_TYPING_WORDS) ∧
    ((typingWordsAt (req.getD (calculateAdaptiveDifficulty h))).filter
        (fun w => !(used.map jsToLower).contains w) = [] →
      ALL_TYPING_WORDS.filter (fun w => !(used.map jsToLower).contains w) ≠ [] →
      chooseNextWordWithDifficulty k h used req ∈
        ALL_TYPING_WORDS.filter (fun w => !(used.map jsToLower).contains w)) := by
  have hpool : candidatePool h used req =
      if ((typingWordsAt (req.getD (calculateAdaptiveDifficulty h))).filter
          (fun w => !(used.map jsToLower).contains w)).isEmpty
      then ALL_TYPING_WORDS.filter (fun w => !(used.map jsToLower).contains w)
      else (typingWordsAt (req.getD (calculateAdaptiveDifficulty h))).filter
          (fun w => !(used.map jsToLower).contains w) := rfl
  by_cases hemp : (candidatePool h used req).isEmpty
  · have hres : chooseNextWordWithDifficulty k h used req = pickRandom k ALL_TYPING_WORDS := by
      rw [chooseNextWordWithDifficulty, if_pos hemp]
    have hallnil : ALL_TYPING_WORDS.filter (fun w => !(used.map jsToLower).contains w) = [] := by
      rw [hpool] at hemp
      by_cases hc : ((typingWordsAt (req.getD (calculateAdaptiveDifficulty h))).filter
          (fun w => !(used.map jsToLower).contains w)).isEmpty
      · rw [if_pos hc] at hemp
        exact List.isEmpty_iff.mp hemp
      · rw [if_neg hc] at hemp
        exact absurd hemp hc
    have hallused : ∀ w ∈ ALL_TYPING_WORDS, w ∈ used.map jsToLower := by
      intro w hw
      have hnp := List.filter_eq_nil_iff.mp hallnil w hw
      simpa using hnp
    exact ⟨fun _ => hallused, fun _ => hres, fun _ hne => absurd hallnil hne⟩
  · have hne : candidatePool h used req ≠ [] := by
      simpa [List.isEmpty_iff] using hemp
    have hmem : chooseNextWordWithDifficulty k h used req ∈ candidatePool h used req := by
      rw [chooseNextWordWithDifficulty, if_neg hemp]
      exact focusLoop_mem k hne _
    have hkey : chooseNextWordWithDifficulty k h used req ∉ used.map jsToLower ∧
        chooseNextWordWithDifficulty k h used req ∈ ALL_TYPING_WORDS := by
      rw [hpool] at hmem
      by_cases hc : ((typingWordsAt (req.getD (calculateAdaptiveDifficulty h))).filter
          (fun w => !(used.map jsToLower).contains w)).isEmpty
      · rw [if_pos hc] at hmem
        obtain ⟨hbase, hflt⟩ := List.mem_filter.mp hmem
        exact ⟨by simpa using hflt, hbase⟩
      · rw [if_neg hc] at hmem
        obtain ⟨hbase, hflt⟩ := List.mem_filter.mp hmem
        exact ⟨by simpa using hflt, typingWordsAt_sub _ _ hbase⟩
    have hlow : jsToLower (chooseNextWordWithDifficulty k h used req) =
        chooseNextWordWithDifficulty k h used req :=
      all_words_lowercase _ hkey.2
    refine ⟨fun hcontra => absurd (hlow ▸ hcontra) hkey.1, fun hallnil => ?_, fun hc0 hane => ?_⟩
    · exfalso
      apply hne
      have hc0 : (typingWordsAt (req.getD (calculateAdaptiveDifficulty h))).filter
          (fun w => !(used.map jsToLower).contains w) = [] := by
        apply List.filter_eq_nil_iff.mpr
        intro w hw
        exact List.filter_eq_nil_iff.mp hallnil w (typingWordsAt_sub _ _ hw)
      rw [hpool, hc0]
      simpa using hallnil
    · have hcand : candidatePool h used req =
          ALL_TYPING_WORDS.filter (fun w => !(used.map jsToLower).contains w) := by
        rw [hpool, hc0]
        simp
      rw [hcand] at hmem
      exact hmem

/-- Witness for C3: with only "CAT" used, the selected word is not a
case-insensitive repetition of it. -/
theorem chooseNextWord_no_reuse_witness :
    ((some "easy" : Option String) = none ∨ (some "easy" : Option String) = some "easy" ∨
      (some "easy" : Option String) = some "medium" ∨
      (some "easy" : Option String) = some "hard") ∧
    jsToLower (chooseNextWordWithDifficulty 0 [] ["CAT"] (some "easy")) ∉
      ["CAT"].map jsToLower := by
  refine ⟨Or.inr (Or.inl rfl), fun hmem => ?_⟩
  have hall := (chooseNextWord_no_reuse 0 [] ["CAT"] (some "easy")
    (Or.inr (Or.inl rfl))).1 hmem
  exact absurd (hall "dog" (by decide)) (by decide)

/-- C4 counterexample: on a history whose only problem letter is `c`,
with every bank word already used, the code returns the unfiltered-bank
pick "dog" even though the narrowed pool of `c`-words is non-empty — so
the narrowing step is not applied to the unfiltered-bank fallback. -/
theorem chooseNextWord_narrow_cex :
    topProblemLetters historyKat = ['c'] ∧
    ALL_TYPING_WORDS.filter (fun w => jsIncludes w 'c') ≠ [] ∧
    chooseNextWordWithDifficulty 1 historyKat ALL_TYPING_WORDS (some "easy") = "dog" ∧
    jsIncludes "dog" 'c' = false ∧
    "dog" ∉ ALL_TYPING_WORDS.filter (fun w => jsIncludes w 'c') := by decide

/-- C4 amended: problem-letter narrowing applies to the candidate pool
that excludes used words (tier pool, else bank minus used): the selector
returns a pick from the first of the top-three problem letters whose
narrowed pool is non-empty, else from the full candidate pool; when the
used words exhaust the bank it instead picks from the unfiltered bank
with no narrowing. -/
theorem chooseNextWord_narrow_spec (k : Nat) (h : List Attempt) (used : List String)
    (req : Option String) :
    (candidatePool h used req ≠ [] →
      chooseNextWordWithDifficulty k h used req =
        (match (topProblemLetters h).findSome?
            (fun l =>
              let s := (candidatePool h used req).filter (fun w => jsIncludes w l)
              if s.isEmpty then none else some s) with
        | some pool => pickRandom k pool
        | none => pickRandom k (candidatePool h used req))) ∧
    (candidatePool h used req = [] →
      chooseNextWordWithDifficulty k h used req = pickRandom k ALL_TYPING_WORDS) := by
  constructor
  · intro hne
    rw [chooseNextWordWithDifficulty,
      if_neg (by simpa [List.isEmpty_iff] using hne)]
    exact focusLoop_eq_findSome k _ _
  · intro hnil
    rw [chooseNextWordWithDifficulty, if_pos (by simp [hnil])]

/-- Witness for C4 amended: on the "kat" history with no used words and
tier `easy`, the narrowed pool for problem letter `c` is non-empty and
the selector returns "cat" from it. -/
theorem chooseNextWord_narrow_spec_witness :
    candidatePool historyKat [] (some "easy") ≠ [] ∧
    chooseNextWordWithDifficulty 0 historyKat [] (some "easy") = "cat" := by
  refine ⟨by decide, ?_⟩
  rw [(chooseNextWord_narrow_spec 0 historyKat [] (some "easy")).1 (by decide)]
  decide

end Joyverse
